import Mathlib

/-!
Verification of the router-js dispatch core (src router: `_matchRoute`,
`_addRoute`, `use`, `fetch`, `_errorResponse`, `RouterResponse`,
`RouterRequest`).

The JavaScript source is embedded shallowly:
* strings are Lean `String`s, handled segment-wise as `List Char`;
* JavaScript numbers are modelled as rationals (NaN and the infinities are
  outside the model; no claim here depends on them);
* thrown exceptions are `Except String` values carrying the message of the
  thrown `Error`;
* JavaScript objects used as string maps are association lists in first
  insertion order, with assignment overwriting in place (`jsAssign`);
* external collaborators (URL parsing, the platform JSON parser, the raw
  body stream) are explicit function or value parameters.
-/

/-- Boolean test used throughout the matcher: a character that is not the
segment separator. -/
def notSlash (c : Char) : Bool := c != '/'

/-- Split a character list at every slash character.  Always returns at
least one (possibly empty) segment; mirrors how a path or pattern string
decomposes into slash-delimited segments. -/
def splitSlash : List Char → List (List Char)
  | [] => [[]]
  | c :: rest =>
    if c = '/' then [] :: splitSlash rest
    else
      match splitSlash rest with
      | [] => [[c]]
      | seg :: segs => (c :: seg) :: segs

/-- Token of the regular expression text produced by `_matchRoute` from a
route pattern: a single source character kept verbatim, or the capturing
group inserted for a named parameter (the source text `([^/]+)`). -/
inductive RTok
  | lit (c : Char)
  | group
deriving DecidableEq

/-- Scan one slash-free pattern segment exactly as the source replacement
regex does.  In the source, `pattern.replace` with the global regex colon
followed by one or more non-slash characters rewrites every such run into
a capturing group and records the run as the parameter name.  Because the
name run cannot cross a slash, the replacement acts independently on each
slash-delimited segment, and inside a segment the first colon that is
followed by at least one more character swallows the whole remainder of
the segment as the name. -/
def scanSeg : List Char → List RTok × List String
  | [] => ([], [])
  | ':' :: rest =>
    if rest.isEmpty then ([.lit ':'], [])
    else ([.group], [String.mk rest])
  | c :: rest =>
    let (ts, ns) := scanSeg rest
    (.lit c :: ts, ns)

/-- Scan a whole list of segments, re-inserting the literal slash between
consecutive segments, concatenating parameter names in left-to-right
order. -/
def scanSegs : List (List Char) → List RTok × List String
  | [] => ([], [])
  | [seg] => scanSeg seg
  | seg :: seg2 :: segs =>
    let (t1, n1) := scanSeg seg
    let (t2, n2) := scanSegs (seg2 :: segs)
    (t1 ++ .lit '/' :: t2, n1 ++ n2)

/-- The full pattern-to-regex translation of `_matchRoute`: the token list
of the anchored regex and the recorded parameter names in order. -/
def scanPattern (p : List Char) : List RTok × List String :=
  scanSegs (splitSlash p)

/-- Greedy backtracking attempt for one capturing group `([^/]+)`: try the
candidate capture lengths from `n` downwards (the regex engine tries the
longest non-slash run first and backtracks to shorter ones), running the
continuation `k` on the remainder. -/
def tryG (k : List Char → Option (List (List Char))) (s : List Char) :
    Nat → Option (List (List Char))
  | 0 => none
  | n + 1 =>
    match k (s.drop (n + 1)) with
    | some gs => some (s.take (n + 1) :: gs)
    | none => tryG k s n

/-- Anchored matching of the generated regex token list against the path
characters, returning the list of captured group texts in order.  A
literal token consumes exactly its character; a group consumes a maximal
non-slash run, backtracking to shorter non-empty runs on failure, exactly
the behaviour of the anchored regex the source builds. -/
def rmatch : List RTok → List Char → Option (List (List Char))
  | [], s => if s.isEmpty then some [] else none
  | .lit c :: ts, s =>
    match s with
    | [] => none
    | x :: xs => if x = c then rmatch ts xs else none
  | .group :: ts, s =>
    tryG (fun s2 => rmatch ts s2) s ((s.takeWhile notSlash).length)

/-- JavaScript object assignment `obj[k] = v` on an association list kept
in first-insertion order: overwrite in place if the key exists, otherwise
append. -/
def jsAssign (obj : List (String × String)) (k v : String) :
    List (String × String) :=
  if obj.any (fun e => e.1 == k) then
    obj.map (fun e => if e.1 == k then (e.1, v) else e)
  else obj ++ [(k, v)]

/-- The parameter-object construction loop of `_matchRoute`: starting from
the empty object, assign each captured value to its parameter name in
left-to-right order (later assignments to a repeated name overwrite
earlier ones, as JavaScript object assignment does). -/
def assignParams (prs : List (String × String)) : List (String × String) :=
  prs.foldl (fun o e => jsAssign o e.1 e.2) []

/-- Property read `obj[k]` on the association-list model of a JavaScript
object. -/
def objGet (obj : List (String × String)) (k : String) : Option String :=
  (obj.find? (fun e => e.1 == k)).map (fun e => e.2)

/-- The (name, capture) pairs produced by a successful `_matchRoute` run,
in declaration order, before they are folded into the params object. -/
def matchRoutePairs (pattern pathname : String) :
    Option (List (String × String)) :=
  (rmatch (scanPattern pattern.toList).1 pathname.toList).map
    (fun gs => (scanPattern pattern.toList).2.zip (gs.map String.mk))

/-- `Router.prototype._matchRoute`: translate the pattern to an anchored
regex, match the pathname against it, and on success build the params
object; `none` is the null returned on a failed match. -/
def matchRoute (pattern pathname : String) :
    Option (List (String × String)) :=
  (matchRoutePairs pattern pathname).map assignParams

/-- Is this pattern segment a named parameter segment, that is, a colon
followed by a non-empty name? -/
def isCapSeg (pseg : List Char) : Bool :=
  decide (2 ≤ pseg.length ∧ pseg.head? = some ':')

/-- Reference matching of one pattern segment against one path segment,
following the specification text: a segment that is a colon followed by a
non-empty name captures the (necessarily non-empty) path segment under
that name; every other segment must be literally identical to the path
segment. -/
def segMatchRef (pseg sseg : List Char) : Option (List (String × String)) :=
  if isCapSeg pseg then
    if sseg.isEmpty then none
    else some [(String.mk pseg.tail, String.mk sseg)]
  else if sseg = pseg then some [] else none

/-- Reference matcher on segment lists: the pattern and path must have the
same number of segments and match segment-for-segment, accumulating the
captured bindings in left-to-right order. -/
def refMatchSegs : List (List Char) → List (List Char) →
    Option (List (String × String))
  | [], [] => some []
  | [], _ :: _ => none
  | _ :: _, [] => none
  | pseg :: ps, sseg :: ss =>
    match segMatchRef pseg sseg with
    | none => none
    | some bs => (refMatchSegs ps ss).map (fun more => bs ++ more)

/-- The reference segment matcher of the specification: split pattern and
path into slash-delimited segments, match them pairwise from start to end
with no partial prefix matches, and build the params object from the
collected bindings exactly as the source loop does. -/
def refSegMatch (pattern path : String) : Option (List (String × String)) :=
  (refMatchSegs (splitSlash pattern.toList) (splitSlash path.toList)).map
    assignParams

/-- Characters that the JavaScript regular-expression engine does not
treat as plain literals.  A pattern character outside a parameter name
that lies in this set is compiled into regex syntax rather than matched
literally, so such patterns are outside the literal-matching fragment. -/
def metaChars : List Char :=
  ['.', '*', '+', '?', '(', ')', '[', ']', '{', '}', '|', '\\', '^', '$']

/-- A character the regex engine matches literally. -/
def plainChar (c : Char) : Bool := !(metaChars.contains c)

/-- A literal pattern segment in the well-behaved fragment: every
character is a plain regex literal, and a colon may appear only as the
very last character of the segment (a colon earlier in the segment would
start a capturing group in the middle of the segment). -/
def litSegOK : List Char → Bool
  | [] => true
  | [c] => plainChar c
  | c :: c2 :: rest => plainChar c && (c != ':') && litSegOK (c2 :: rest)

/-- A pattern segment in the well-behaved fragment: either a named
parameter segment (colon plus non-empty name) or a well-behaved literal
segment. -/
def segOK (seg : List Char) : Bool :=
  isCapSeg seg || litSegOK seg

/-- The well-behaved pattern fragment: every slash-delimited segment is
either a named parameter segment or a plain literal segment.  On this
fragment the source regex construction matches segments literally, so the
matcher agrees with the reference segment matcher. -/
def WFpat (pattern : String) : Prop :=
  ((splitSlash pattern.toList).all segOK) = true

/-- A JSON value, as produced by the canonical JSON serializer on the
objects this router builds.  Response bodies that the router serializes
are kept in this structured form (the source stringifies them; the
structure is exactly what the string encodes). -/
inductive JsonVal
  | str (s : String)
  | num (q : Rat)
  | obj (fields : List (String × JsonVal))

/-- The body of a materialized transport response. -/
inductive BodyVal
  | jsonBody (j : JsonVal)
  | textBody (s : String)

/-- A materialized transport response, the external `Response` object:
body, numeric status, status text and header map. -/
structure Response where
  body : BodyVal
  status : Rat
  statusText : String
  headers : List (String × String)

/-- Property read on a JSON object value. -/
def jsonObjGet (j : JsonVal) (k : String) : Option JsonVal :=
  match j with
  | .obj fields => (fields.find? (fun e => e.1 == k)).map (fun e => e.2)
  | _ => none

/-- Read a field of a JSON response body. -/
def Response.bodyField (r : Response) (k : String) : Option JsonVal :=
  match r.body with
  | .jsonBody j => jsonObjGet j k
  | _ => none

/-- `Router.prototype._errorResponse`: the single structured error
builder.  The JSON body always carries the status text under `error` and
the numeric code under `status`; the `message` field is added only when
the message argument is truthy, so it is omitted both for null and for
the empty string.  The headers are exactly the JSON content type and the
permissive CORS origin. -/
def Router._errorResponse (status : Rat) (statusText : String)
    (message : Option String) : Response :=
  let base : List (String × JsonVal) :=
    [("error", .str statusText), ("status", .num status)]
  let fields : List (String × JsonVal) :=
    match message with
    | some m => if m = "" then base else base ++ [("message", .str m)]
    | none => base
  { body := .jsonBody (.obj fields)
    status := status
    statusText := statusText
    headers := [("Content-Type", "application/json"),
                ("Access-Control-Allow-Origin", "*")] }

/-- A JavaScript argument expected to be a string: nullish and other
falsy values, a truthy non-string value, or an actual string (note that
the empty string is itself falsy). -/
inductive StrArg
  | absent
  | nonStr
  | strv (s : String)

/-- Falsiness of a string-expected argument, as tested by `!url`: nullish
values and the empty string are falsy. -/
def StrArg.falsy : StrArg → Bool
  | .absent => true
  | .nonStr => false
  | .strv s => s == ""

/-- The raw transport request handed to `fetch`: its `url` property (which
need not be a string) and its `method`.  Header access, the body stream
and the platform metadata bag are external collaborators that the claims
never inspect, so they are not carried here. -/
structure RawRequest where
  url : StrArg
  method : String

/-- The request wrapper built by `new RouterRequest(request)`.  The source
constructor assigns `client`, `method`, `url`, `headers`, `body`,
`request` and the eagerly parsed `query`, but it never assigns
`this.params`: the `params` property is therefore undefined (here `none`)
until the dispatcher assigns it after a successful route match.  Fields
parsed from external collaborators (URL object, query map, client
metadata) are omitted from the model. -/
structure RouterRequest where
  method : String
  params : Option (List (String × String))

/-- The `RouterRequest` constructor on a non-null raw request. -/
def RouterRequest.fromRaw (raw : RawRequest) : RouterRequest :=
  { method := raw.method, params := none }

/-- `RouterRequest.prototype.text`, as a function of the result of the
underlying raw body read (`this.request.text()`, an external stream
operation that may itself fail).  The one-mebibyte ceiling check throws
inside the same try block, so its failure is wrapped by the catch exactly
like a failure of the underlying read. -/
def RouterRequest.text (rawText : Except String String) :
    Except String String :=
  match rawText with
  | .error m => .error ("Failed to parse request body as text: " ++ m)
  | .ok t =>
    if t.length > 1024 * 1024 then
      .error ("Failed to parse request body as text: " ++
        "Request body too large (max 1MB)")
    else .ok t

/-- Does the first string contain the second as a contiguous substring
(JavaScript `String.prototype.includes`)? -/
def startsWithL : List Char → List Char → Bool
  | _, [] => true
  | [], _ :: _ => false
  | a :: as, b :: bs => a == b && startsWithL as bs

def hasSubL : List Char → List Char → Bool
  | [], n => n.isEmpty
  | h :: t, n => startsWithL (h :: t) n || hasSubL t n

def strIncludes (s sub : String) : Bool := hasSubL s.toList sub.toList

/-- `RouterRequest.prototype.json`, as a function of the platform JSON
parser and the raw body read.  It obtains the text through `text()`
(inheriting the size ceiling), throws an empty-body failure when the
trimmed text is empty, and otherwise parses; the catch re-wraps any
failure, branding it a JSON-format failure when its message mentions
JSON. -/
def RouterRequest.json (parse : String → Except String JsonVal)
    (rawText : Except String String) : Except String JsonVal :=
  let inner : Except String JsonVal :=
    match RouterRequest.text rawText with
    | .error m => .error m
    | .ok t => if t.trim = "" then .error "Empty request body" else parse t
  match inner with
  | .ok j => .ok j
  | .error m =>
    if strIncludes m "JSON" then .error ("Invalid JSON format: " ++ m)
    else .error ("Failed to parse request body as JSON: " ++ m)

/-- The mutable response builder `RouterResponse`: pending header map,
status and status text. -/
structure RouterResponse where
  header : List (String × String)
  status : Rat
  statusText : String

/-- The `RouterResponse` constructor: default CORS and server headers,
status 200, status text OK. -/
def RouterResponse.init : RouterResponse :=
  { header := [("Access-Control-Allow-Origin", "*"),
               ("Server", "Cloudflare Worker"),
               ("Access-Control-Allow-Headers", "*"),
               ("Access-Control-Allow-Methods",
                "GET, POST, PUT, DELETE, PATCH, OPTIONS")]
    status := 200
    statusText := "OK" }

/-- The recognized options of `cors(options)` with their defaults. -/
structure CorsOptions where
  origin : String := "*"
  methods : String := "GET, POST, PUT, DELETE, PATCH, OPTIONS"
  headers : String := "*"
  credentials : Bool := false

/-- `RouterResponse.prototype.cors`: set the three CORS headers, and the
credentials header (to the literal string true) only when credentials is
truthy. -/
def RouterResponse.cors (r : RouterResponse) (o : CorsOptions) :
    RouterResponse :=
  let h1 := jsAssign r.header "Access-Control-Allow-Origin" o.origin
  let h2 := jsAssign h1 "Access-Control-Allow-Methods" o.methods
  let h3 := jsAssign h2 "Access-Control-Allow-Headers" o.headers
  let h4 :=
    if o.credentials then
      jsAssign h3 "Access-Control-Allow-Credentials" "true"
    else h3
  { r with header := h4 }

/-- A JavaScript argument expected to be a number. -/
inductive NumArg
  | notNum
  | num (x : Rat)

/-- A JavaScript argument expected to be a plain object map: nullish or
falsy, a truthy non-object, or an object of string entries (note that
`typeof null` is object, but null is falsy and therefore skipped by the
source check, so it belongs to `absent`). -/
inductive ObjArg
  | absent
  | nonObj
  | objv (entries : List (String × String))

/-- Object spread `\x7b...base, ...extra\x7d`: entries of `extra` are
assigned over `base` in order, so on a key conflict the extra entry wins
while keeping the first-insertion position of the key. -/
def jsSpread (base extra : List (String × String)) :
    List (String × String) :=
  extra.foldl (fun o e => jsAssign o e.1 e.2) base

/-- `RouterResponse.prototype.writeHead`.  The status check requires a
number between 100 and 599 inclusive and nothing more (in particular no
integrality check); the status text check fires only for truthy
non-strings; the headers check fires only for truthy non-objects.  On
success only the pending builder state changes: status is set, status
text is set (falsy status text becomes the empty string), and supplied
headers are spread over the current ones. -/
def RouterResponse.writeHead (r : RouterResponse) (status : NumArg)
    (statusText : StrArg) (headers : ObjArg) :
    Except String RouterResponse :=
  match status with
  | .notNum => .error "Status must be a number between 100 and 599"
  | .num x =>
    if x < 100 ∨ x > 599 then
      .error "Status must be a number between 100 and 599"
    else
      match statusText with
      | .nonStr => .error "Status text must be a string"
      | _ =>
        match headers with
        | .nonObj => .error "Headers must be an object"
        | _ =>
          let st : String :=
            match statusText with
            | .strv s => s
            | _ => ""
          let hdr : List (String × String) :=
            match headers with
            | .objv es => jsSpread r.header es
            | _ => r.header
          .ok { header := hdr, status := x, statusText := st }

/-- `RouterResponse.prototype.json`: fails on the undefined body (the
thrown serialization error is wrapped by the catch of the same method);
otherwise materializes a response from the pending state plus the JSON
content type, falling back to 200 and OK when status or status text are
falsy. -/
def RouterResponse.json (r : RouterResponse) (body : Option JsonVal) :
    Except String Response :=
  match body with
  | none =>
    .error ("Failed to serialize response to JSON: " ++
      "Cannot serialize undefined to JSON")
  | some j =>
    .ok { body := .jsonBody j
          status := if r.status = 0 then 200 else r.status
          statusText := if r.statusText = "" then "OK" else r.statusText
          headers := jsAssign r.header "Content-Type" "application/json" }

/-- `RouterResponse.prototype.text`: coerce a nullish body to the empty
string and materialize with the plain-text content type. -/
def RouterResponse.text (r : RouterResponse) (body : Option String) :
    Response :=
  { body := .textBody (match body with | none => "" | some s => s)
    status := if r.status = 0 then 200 else r.status
    statusText := if r.statusText = "" then "OK" else r.statusText
    headers := jsAssign r.header "Content-Type" "text/plain" }

/-- `RouterResponse.prototype.html`: same coercion as `text`, with the
HTML content type. -/
def RouterResponse.html (r : RouterResponse) (body : Option String) :
    Response :=
  { body := .textBody (match body with | none => "" | some s => s)
    status := if r.status = 0 then 200 else r.status
    statusText := if r.statusText = "" then "OK" else r.statusText
    headers := jsAssign r.header "Content-Type" "text/html" }

/-- Observable outcome of one middleware invocation on this dispatch: it
returned a materialized response (instance of Response), it threw with
the given message, or it returned anything else and the chain proceeds.
The middleware may also have mutated the response builder, so it returns
the builder state as well. -/
inductive MWOutcome
  | proceed
  | respond (r : Response)
  | raise (msg : String)

def Middleware := RouterRequest → RouterResponse → MWOutcome × RouterResponse

/-- Observable outcome of one route handler invocation: a returned
response or a thrown failure with its message. -/
inductive HOutcome
  | ok (r : Response)
  | raise (msg : String)

def Handler := RouterRequest → RouterResponse → HOutcome

/-- A registered route. -/
structure Route where
  url : String
  callback : Handler
  method : String

/-- The router: route table and middleware chain, in insertion order. -/
structure Router where
  routes : List Route
  middlewares : List Middleware

/-- The `Router` constructor: both tables empty. -/
def Router.empty : Router := { routes := [], middlewares := [] }

/-- A JavaScript argument expected to be a function. -/
inductive CbArg
  | absent
  | nonFn
  | fnv (h : Handler)

/-- Falsiness of a callback argument, as tested by `!callback`. -/
def CbArg.falsy : CbArg → Bool
  | .absent => true
  | _ => false

/-- A middleware argument to `use`. -/
inductive MwArg
  | nonFn
  | fnv (m : Middleware)

/-- `Router.prototype.use`: reject non-functions, else append to the
middleware chain. -/
def Router.use (r : Router) (middleware : MwArg) : Except String Router :=
  match middleware with
  | .nonFn => .error "Middleware must be a function."
  | .fnv m => .ok { r with middlewares := r.middlewares ++ [m] }

/-- `Router.prototype._addRoute`: validate presence, then types, then
scan the table for an identical (method, url) pair, and finally append
the new route.  The two branches for an absent url or callback after the
falsiness check are unreachable (falsy arguments were already rejected);
they carry the type-error message of the following source check. -/
def Router._addRoute (r : Router) (method : String) (url : StrArg)
    (callback : CbArg) : Except String Router :=
  if url.falsy || callback.falsy then
    .error "URL or Callback is not provided."
  else
    match url with
    | .nonStr => .error "URL must be of type string."
    | .absent => .error "URL must be of type string."
    | .strv u =>
      match callback with
      | .nonFn => .error "Callback must be of type function."
      | .absent => .error "Callback must be of type function."
      | .fnv cb =>
        if r.routes.any (fun rt => rt.url == u && rt.method == method) then
          .error ("Route already exists for " ++ method ++ " " ++ u ++ ".")
        else
          .ok { r with
                routes := r.routes ++ [{ url := u, callback := cb,
                                         method := method }] }

def Router.get (r : Router) (url : StrArg) (cb : CbArg) :=
  Router._addRoute r "GET" url cb

def Router.post (r : Router) (url : StrArg) (cb : CbArg) :=
  Router._addRoute r "POST" url cb

def Router.put (r : Router) (url : StrArg) (cb : CbArg) :=
  Router._addRoute r "PUT" url cb

def Router.delete (r : Router) (url : StrArg) (cb : CbArg) :=
  Router._addRoute r "DELETE" url cb

def Router.patch (r : Router) (url : StrArg) (cb : CbArg) :=
  Router._addRoute r "PATCH" url cb

def Router.options (r : Router) (url : StrArg) (cb : CbArg) :=
  Router._addRoute r "OPTIONS" url cb

/-- Router states reachable from the constructor by the registration
operations (route registration and middleware registration). -/
inductive Reachable : Router → Prop
  | init : Reachable Router.empty
  | addRoute (r r2 : Router) (method : String) (url : StrArg) (cb : CbArg) :
      Reachable r → Router._addRoute r method url cb = .ok r2 → Reachable r2
  | useMw (r r2 : Router) (mw : MwArg) :
      Reachable r → Router.use r mw = .ok r2 → Reachable r2

/-- Execution-trace event of one dispatch: a middleware ran (recording
the params it could observe on the request), or a route handler ran
(recording the params assigned to the request it received).  The trace is
instrumentation of the model; the response component of `fetch` is the
return value of the source. -/
inductive Event
  | ranMiddleware (i : Nat) (params : Option (List (String × String)))
  | ranHandler (i : Nat) (params : Option (List (String × String)))
deriving DecidableEq

/-- Result of the middleware loop. -/
inductive MWPhase
  | fellThrough (res : RouterResponse)
  | shortCircuit (r : Response)
  | errored (msg : String)

/-- The middleware loop of `fetch`: run each middleware in order on the
request and the threaded builder state; stop on the first middleware that
returns a materialized response or throws. -/
def runMWs : List Middleware → RouterRequest → RouterResponse → Nat →
    List Event × MWPhase
  | [], _, res, _ => ([], .fellThrough res)
  | m :: ms, req, res, i =>
    match m req res with
    | (.respond r, _) => ([.ranMiddleware i req.params], .shortCircuit r)
    | (.raise msg, _) => ([.ranMiddleware i req.params], .errored msg)
    | (.proceed, res2) =>
      let (tr, ph) := runMWs ms req res2 (i + 1)
      (.ranMiddleware i req.params :: tr, ph)

/-- Result of the route scan. -/
inductive RoutePhase
  | handled (r : Response)
  | herrored (msg : String)
  | noMatch

/-- The route scan of `fetch`: for each route in insertion order, run the
matcher, and on a structural match with equal method assign the captured
params to the request and invoke the handler. -/
def runRoutes : List Route → RouterRequest → RouterResponse → String →
    String → Nat → List Event × RoutePhase
  | [], _, _, _, _, _ => ([], .noMatch)
  | rt :: rts, req, res, pathname, method, i =>
    match matchRoute rt.url pathname with
    | some ps =>
      if rt.method == method then
        let req2 : RouterRequest := { req with params := some ps }
        match rt.callback req2 res with
        | .ok r => ([.ranHandler i req2.params], .handled r)
        | .raise msg => ([.ranHandler i req2.params], .herrored msg)
      else runRoutes rts req res pathname method (i + 1)
    | none => runRoutes rts req res pathname method (i + 1)

/-- `Router.prototype.fetch`, instrumented with the execution trace.  The
URL parser is the external `new URL` constructor, modelled as a function
returning the pathname or `none` when it throws; its failure is the one
failure inside the top-level try that no inner handler catches, so it
lands in the last-resort catch with the fixed message. -/
def Router.fetch (router : Router) (parseURL : String → Option String)
    (request : Option RawRequest) : Response × List Event :=
  match request with
  | none => (Router._errorResponse 400 "Invalid request object" none, [])
  | some raw =>
    match raw.url with
    | .strv u =>
      match parseURL u with
      | none =>
        (Router._errorResponse 500 "Internal Server Error"
          (some "Failed to process request"), [])
      | some pathname =>
        let req := RouterRequest.fromRaw raw
        let res := RouterResponse.init
        match runMWs router.middlewares req res 0 with
        | (tr, .shortCircuit r) => (r, tr)
        | (tr, .errored msg) =>
          (Router._errorResponse 500 "Middleware Error" (some msg), tr)
        | (tr, .fellThrough res2) =>
          match runRoutes router.routes req res2 pathname raw.method 0 with
          | (tr2, .handled r) => (r, tr ++ tr2)
          | (tr2, .herrored msg) =>
            (Router._errorResponse 500 "Internal Server Error" (some msg),
             tr ++ tr2)
          | (tr2, .noMatch) =>
            (Router._errorResponse 404 "Not Found"
              (some ("Route " ++ raw.method ++ " " ++ pathname ++
                " not found")), tr ++ tr2)
    | _ => (Router._errorResponse 400 "Invalid request object" none, [])

/-- A middleware event never carries assigned params. -/
def mwSawNoParams : Event → Bool
  | .ranMiddleware _ ps => ps.isNone
  | _ => true

/-- A handler event always carries assigned params. -/
def handlerSawParams : Event → Bool
  | .ranHandler _ ps => ps.isSome
  | _ => true

/-! ### Helper lemmas about slash splitting and the token matcher -/

@[simp] theorem notSlash_eq_true {c : Char} : notSlash c = true ↔ c ≠ '/' := by
  simp [notSlash]

theorem splitSlash_ne_nil (p : List Char) : splitSlash p ≠ [] := by
  cases p with
  | nil => simp [splitSlash]
  | cons c rest =>
    simp only [splitSlash]
    split
    · simp
    · split <;> simp

theorem splitSlash_eq (s : List Char) :
    splitSlash s = s.takeWhile notSlash ::
      (match s.dropWhile notSlash with
       | [] => []
       | _ :: s2 => splitSlash s2) := by
  induction s with
  | nil => simp [splitSlash]
  | cons c rest ih =>
    by_cases h : c = '/'
    · subst h
      simp [splitSlash, List.takeWhile_cons_of_neg, List.dropWhile_cons_of_neg,
        notSlash]
    · have hns : notSlash c = true := by simpa using h
      rw [List.takeWhile_cons_of_pos hns, List.dropWhile_cons_of_pos hns]
      simp only [splitSlash, if_neg h]
      rw [ih]

theorem takeWhile_all_eq {l : List Char} (h : ∀ c ∈ l, c ≠ '/') :
    l.takeWhile notSlash = l ∧ l.dropWhile notSlash = [] := by
  induction l with
  | nil => simp
  | cons c rest ih =>
    have hc : notSlash c = true := by simpa using h c (by simp)
    have hr := ih (fun x hx => h x (by simp [hx]))
    rw [List.takeWhile_cons_of_pos hc, List.dropWhile_cons_of_pos hc]
    exact ⟨by rw [hr.1], hr.2⟩

theorem takeWhile_app_slash {l r : List Char} (h : ∀ c ∈ l, c ≠ '/') :
    (l ++ '/' :: r).takeWhile notSlash = l ∧
      (l ++ '/' :: r).dropWhile notSlash = '/' :: r := by
  induction l with
  | nil =>
    constructor
    · simp [List.takeWhile_cons_of_neg, notSlash]
    · simp [List.dropWhile_cons_of_neg, notSlash]
  | cons c rest ih =>
    have hc : notSlash c = true := by simpa using h c (by simp)
    have hr := ih (fun x hx => h x (by simp [hx]))
    rw [List.cons_append, List.takeWhile_cons_of_pos hc,
      List.dropWhile_cons_of_pos hc]
    exact ⟨by rw [hr.1], hr.2⟩

theorem dropWhile_head_slash {s : List Char} {x : Char} {xs : List Char}
    (h : s.dropWhile notSlash = x :: xs) : x = '/' := by
  induction s with
  | nil => simp at h
  | cons c rest ih =>
    by_cases hc : notSlash c = true
    · rw [List.dropWhile_cons_of_pos hc] at h
      exact ih h
    · rw [List.dropWhile_cons_of_neg hc] at h
      cases h
      simpa [notSlash] using hc

theorem takeWhile_take_eq (s : List Char) :
    s.take ((s.takeWhile notSlash).length) = s.takeWhile notSlash := by
  induction s with
  | nil => simp
  | cons c rest ih =>
    by_cases hc : notSlash c = true
    · rw [List.takeWhile_cons_of_pos hc]
      simpa using ih
    · rw [List.takeWhile_cons_of_neg hc]
      simp

theorem takeWhile_drop_eq (s : List Char) :
    s.drop ((s.takeWhile notSlash).length) = s.dropWhile notSlash := by
  induction s with
  | nil => simp
  | cons c rest ih =>
    by_cases hc : notSlash c = true
    · rw [List.takeWhile_cons_of_pos hc, List.dropWhile_cons_of_pos hc]
      simpa using ih
    · rw [List.takeWhile_cons_of_neg hc, List.dropWhile_cons_of_neg hc]
      simp

theorem takeWhile_length_le (s : List Char) :
    (s.takeWhile notSlash).length ≤ s.length := by
  induction s with
  | nil => simp
  | cons c rest ih =>
    by_cases hc : notSlash c = true
    · rw [List.takeWhile_cons_of_pos hc]
      simpa using Nat.succ_le_succ ih
    · rw [List.takeWhile_cons_of_neg hc]
      simp

theorem drop_in_takeWhile (s : List Char) (m : Nat)
    (h : m < (s.takeWhile notSlash).length) :
    ∃ x xs, s.drop m = x :: xs ∧ x ≠ '/' := by
  induction s generalizing m with
  | nil => simp at h
  | cons c rest ih =>
    by_cases hc : notSlash c = true
    · rw [List.takeWhile_cons_of_pos hc] at h
      cases m with
      | zero => exact ⟨c, rest, by simp, by simpa using hc⟩
      | succ m2 =>
        have := ih m2 (by simpa using Nat.lt_of_succ_lt_succ h)
        simpa using this
    · rw [List.takeWhile_cons_of_neg hc] at h
      simp at h

/-- A run of literal tokens consumes exactly its own characters. -/
theorem rmatch_lit_run (l : List Char) (ts : List RTok) (s : List Char) :
    rmatch (l.map RTok.lit ++ ts) s =
      if s.take l.length = l then rmatch ts (s.drop l.length) else none := by
  induction l generalizing s with
  | nil => simp
  | cons c rest ih =>
    cases s with
    | nil => simp [rmatch]
    | cons x xs =>
      simp only [List.map_cons, List.cons_append, rmatch, List.append_eq]
      by_cases hx : x = c
      · subst hx
        rw [if_pos rfl, ih xs]
        simp
      · rw [if_neg hx]
        have hcond : ¬((x :: xs).take ((c :: rest).length) = c :: rest) := by
          simp [hx]
        rw [if_neg hcond]

theorem rmatch_nil (s : List Char) :
    rmatch [] s = if s.isEmpty then some [] else none := rfl

/-- Below the length of the leading non-slash run, every candidate group
length fails when the continuation starts with a literal slash or is
empty. -/
theorem tryG_below_none {ts : List RTok} {s : List Char}
    (hts : ts = [] ∨ ∃ ts2, ts = RTok.lit '/' :: ts2) (m : Nat)
    (hm : m < (s.takeWhile notSlash).length) :
    tryG (fun s2 => rmatch ts s2) s m = none := by
  induction m with
  | zero => rfl
  | succ m2 ih =>
    have hlt : m2 + 1 < (s.takeWhile notSlash).length :=
      hm
    obtain ⟨x, xs, hdrop, hx⟩ := drop_in_takeWhile s (m2 + 1) hlt
    have hfail : rmatch ts (s.drop (m2 + 1)) = none := by
      rcases hts with h | ⟨ts2, h⟩
      · subst h
        rw [hdrop]
        simp [rmatch]
      · subst h
        rw [hdrop]
        simp [rmatch, hx]
    simp only [tryG, hfail]
    exact ih (Nat.lt_of_succ_lt hm)

/-- Matching a group whose continuation starts with a literal slash or is
empty: the group must take exactly the maximal non-slash run. -/
theorem rmatch_group {ts : List RTok} (s : List Char)
    (hts : ts = [] ∨ ∃ ts2, ts = RTok.lit '/' :: ts2) :
    rmatch (RTok.group :: ts) s =
      (if (s.takeWhile notSlash).length = 0 then none
       else (rmatch ts (s.dropWhile notSlash)).map
         (fun gs => s.takeWhile notSlash :: gs)) := by
  have hstep : rmatch (RTok.group :: ts) s =
      tryG (fun s2 => rmatch ts s2) s ((s.takeWhile notSlash).length) := rfl
  rw [hstep]
  cases hk : (s.takeWhile notSlash).length with
  | zero => rfl
  | succ k2 =>
    rw [if_neg (Nat.succ_ne_zero k2)]
    have hdrop : s.drop (k2 + 1) = s.dropWhile notSlash := by
      rw [← hk]
      exact takeWhile_drop_eq s
    have htake : s.take (k2 + 1) = s.takeWhile notSlash := by
      rw [← hk]
      exact takeWhile_take_eq s
    simp only [tryG, hdrop, htake]
    cases hmatch : rmatch ts (s.dropWhile notSlash) with
    | some gs => rfl
    | none =>
      simp only [Option.map_none']
      exact tryG_below_none hts k2 (by rw [hk]; exact Nat.lt_succ_self k2)

/-- A well-behaved literal segment is scanned to its characters as
literal tokens, with no recorded names. -/
theorem scanSeg_lit {seg : List Char} (h : litSegOK seg = true) :
    scanSeg seg = (seg.map RTok.lit, []) := by
  induction seg with
  | nil => rfl
  | cons c rest ih =>
    cases rest with
    | nil =>
      by_cases hc : c = ':'
      · subst hc
        rfl
      · simp [scanSeg, hc]
    | cons c2 rest2 =>
      have hodd : (plainChar c = true ∧ ¬ c = ':') ∧
          litSegOK (c2 :: rest2) = true := by
        simpa [litSegOK, Bool.and_eq_true] using h
      have hc : c ≠ ':' := hodd.1.2
      have hrest := ih hodd.2
      simp [scanSeg, hc, hrest]

theorem rmatch_lit_nil (c : Char) (ts : List RTok) :
    rmatch (RTok.lit c :: ts) [] = none := rfl

theorem rmatch_lit_cons (c : Char) (ts : List RTok) (x : Char)
    (xs : List Char) :
    rmatch (RTok.lit c :: ts) (x :: xs) =
      if x = c then rmatch ts xs else none := rfl

/-- A bare run of literal tokens matches exactly the identical string. -/
theorem rmatch_lit_whole (seg s : List Char) :
    rmatch (seg.map RTok.lit) s = if s = seg then some [] else none := by
  have h := rmatch_lit_run seg [] s
  rw [List.append_nil] at h
  rw [h]
  by_cases hs : s = seg
  · subst hs
    simp [rmatch_nil]
  · rw [if_neg hs]
    by_cases ht : s.take seg.length = seg
    · rw [if_pos ht, rmatch_nil]
      have hd : s.drop seg.length ≠ [] := by
        intro hemp
        apply hs
        have hsplit := List.take_append_drop seg.length s
        rw [ht, hemp, List.append_nil] at hsplit
        exact hsplit.symm
      simp [List.isEmpty_iff, hd]
    · rw [if_neg ht]

theorem scanSegs_cons_cons (seg seg2 : List Char) (rest : List (List Char)) :
    scanSegs (seg :: seg2 :: rest) =
      ((scanSeg seg).1 ++ RTok.lit '/' :: (scanSegs (seg2 :: rest)).1,
       (scanSeg seg).2 ++ (scanSegs (seg2 :: rest)).2) := by
  rcases h1 : scanSeg seg with ⟨t1, n1⟩
  rcases h2 : scanSegs (seg2 :: rest) with ⟨t2, n2⟩
  simp [scanSegs, h1, h2]

@[simp] theorem isCapSeg_cons (c : Char) (r : List Char) :
    isCapSeg (':' :: c :: r) = true := by
  simp [isCapSeg]

theorem isCapSeg_shape {seg : List Char} (h : isCapSeg seg = true) :
    ∃ c r, seg = ':' :: c :: r := by
  rcases (by simpa [isCapSeg] using h :
      2 ≤ seg.length ∧ seg.head? = some ':') with ⟨hlen, hhd⟩
  match seg with
  | [] => simp at hhd
  | [c] => simp at hlen
  | c :: c2 :: r =>
    refine ⟨c2, r, ?_⟩
    have : c = ':' := by simpa using hhd
    rw [this]

/-- A well-behaved literal segment is not a parameter segment. -/
theorem litSegOK_not_cap {seg : List Char} (h : litSegOK seg = true) :
    isCapSeg seg = false := by
  match seg with
  | [] => rfl
  | [c] => rfl
  | c :: c2 :: r =>
    have hc : c ≠ ':' := by
      rcases (by simpa [litSegOK, Bool.and_eq_true] using h :
        (plainChar c = true ∧ ¬ c = ':') ∧ litSegOK (c2 :: r) = true) with
        ⟨⟨_, hc⟩, _⟩
      exact hc
    simp [isCapSeg, hc]

theorem segOK_cases {seg : List Char} (h : segOK seg = true) :
    (∃ c r, seg = ':' :: c :: r) ∨ litSegOK seg = true := by
  rcases (by simpa [segOK, Bool.or_eq_true] using h :
      isCapSeg seg = true ∨ litSegOK seg = true) with hcap | hlit
  · exact Or.inl (isCapSeg_shape hcap)
  · exact Or.inr hlit

/-- On well-behaved literal segments the reference matcher is plain
equality. -/
theorem segMatchRef_lit {seg : List Char} (h : litSegOK seg = true)
    (x : List Char) :
    segMatchRef seg x = if x = seg then some [] else none := by
  simp [segMatchRef, litSegOK_not_cap h]

theorem scanSegs_cap_cons (c : Char) (r : List Char) (seg2 : List Char)
    (rest : List (List Char)) :
    scanSegs ((':' :: c :: r) :: seg2 :: rest) =
      (RTok.group :: RTok.lit '/' :: (scanSegs (seg2 :: rest)).1,
       String.mk (c :: r) :: (scanSegs (seg2 :: rest)).2) := by
  have hsg : scanSeg (':' :: c :: r) = ([RTok.group], [String.mk (c :: r)]) :=
    rfl
  rw [scanSegs_cons_cons, hsg]
  rfl

theorem scanSegs_lit_cons {seg : List Char} (hlit : litSegOK seg = true)
    (seg2 : List Char) (rest : List (List Char)) :
    scanSegs (seg :: seg2 :: rest) =
      (seg.map RTok.lit ++ RTok.lit '/' :: (scanSegs (seg2 :: rest)).1,
       (scanSegs (seg2 :: rest)).2) := by
  rw [scanSegs_cons_cons, scanSeg_lit hlit]
  rfl

/-- Core equivalence: on segment lists whose members are well behaved,
the compiled token matcher (with names zipped onto the captures) agrees
with the reference segment-by-segment matcher. -/
theorem main_segs (segs : List (List Char)) :
    ∀ s : List Char, segs ≠ [] →
      (∀ seg ∈ segs, segOK seg = true ∧ '/' ∉ seg) →
      (rmatch (scanSegs segs).1 s).map
        (fun gs => (scanSegs segs).2.zip (gs.map String.mk)) =
      refMatchSegs segs (splitSlash s) := by
  induction segs with
  | nil => intro s hne _; exact absurd rfl hne
  | cons seg segs2 ih =>
    intro s _ hall
    have hseg := hall seg (by simp)
    cases segs2 with
    | nil =>
      rcases segOK_cases hseg.1 with ⟨c, r, hcap⟩ | hlit
      · subst hcap
        have hscan : scanSegs [':' :: c :: r] =
            ([RTok.group], [String.mk (c :: r)]) := rfl
        simp only [hscan]
        rw [rmatch_group s (Or.inl rfl)]
        rw [splitSlash_eq s]
        cases hdw : s.dropWhile notSlash with
        | nil =>
          by_cases htw : s.takeWhile notSlash = []
          · simp [htw, refMatchSegs, segMatchRef]
          · have hlen : (s.takeWhile notSlash).length ≠ 0 := by
              simpa [List.length_eq_zero] using htw
            rw [if_neg hlen]
            simp [rmatch_nil, refMatchSegs, segMatchRef, List.isEmpty_iff,
              htw]
        | cons d s2 =>
          obtain ⟨x, xs, hsp⟩ : ∃ x xs, splitSlash s2 = x :: xs := by
            cases h : splitSlash s2 with
            | nil => exact absurd h (splitSlash_ne_nil s2)
            | cons x xs => exact ⟨x, xs, rfl⟩
          have hrnone : rmatch ([] : List RTok) (d :: s2) = none := rfl
          by_cases htw : s.takeWhile notSlash = []
          · simp [htw, hsp, refMatchSegs, segMatchRef]
          · have hlen : (s.takeWhile notSlash).length ≠ 0 := by
              simpa [List.length_eq_zero] using htw
            rw [if_neg hlen]
            simp [hrnone, hsp, refMatchSegs, segMatchRef, List.isEmpty_iff,
              htw]
      · have hscan : scanSegs [seg] = (seg.map RTok.lit, []) := by
          show scanSeg seg = _
          exact scanSeg_lit hlit
        simp only [hscan]
        rw [rmatch_lit_whole, splitSlash_eq s]
        cases hdw : s.dropWhile notSlash with
        | nil =>
          have hs : s.takeWhile notSlash = s := by
            conv_rhs => rw [← List.takeWhile_append_dropWhile
              (p := notSlash) (l := s)]
            rw [hdw, List.append_nil]
          rw [hs]
          by_cases he : s = seg
          · simp [he, refMatchSegs, segMatchRef_lit hlit]
          · simp [he, refMatchSegs, segMatchRef_lit hlit]
        | cons d s2 =>
          have hd : d = '/' := dropWhile_head_slash hdw
          have hsne : s ≠ seg := by
            intro he
            apply hseg.2
            rw [← he]
            have hsplit := List.takeWhile_append_dropWhile
              (p := notSlash) (l := s)
            rw [hdw] at hsplit
            rw [← hsplit, hd]
            simp
          obtain ⟨x, xs, hsp⟩ : ∃ x xs, splitSlash s2 = x :: xs := by
            cases h : splitSlash s2 with
            | nil => exact absurd h (splitSlash_ne_nil s2)
            | cons x xs => exact ⟨x, xs, rfl⟩
          rw [if_neg hsne]
          by_cases he2 : s.takeWhile notSlash = seg
          · simp [hsp, refMatchSegs, segMatchRef_lit hlit, he2]
          · simp [hsp, refMatchSegs, segMatchRef_lit hlit, he2]
    | cons seg2 rest =>
      have hall2 : ∀ sg ∈ seg2 :: rest, segOK sg = true ∧ '/' ∉ sg :=
        fun sg hsg => hall sg (List.mem_cons_of_mem _ hsg)
      have ihx : ∀ s2 : List Char,
          (rmatch (scanSegs (seg2 :: rest)).1 s2).map
            (fun gs => (scanSegs (seg2 :: rest)).2.zip (gs.map String.mk)) =
          refMatchSegs (seg2 :: rest) (splitSlash s2) :=
        fun s2 => ih s2 (by simp) hall2
      rcases segOK_cases hseg.1 with ⟨c, r, hcap⟩ | hlit
      · subst hcap
        rw [scanSegs_cap_cons]
        rw [rmatch_group s (Or.inr ⟨(scanSegs (seg2 :: rest)).1, rfl⟩)]
        rw [splitSlash_eq s]
        cases hdw : s.dropWhile notSlash with
        | nil =>
          by_cases htw : (s.takeWhile notSlash).length = 0
          · rw [if_pos htw]
            cases hsm : segMatchRef (':' :: c :: r) (s.takeWhile notSlash)
              with
            | none => simp [refMatchSegs, hsm]
            | some bs => simp [refMatchSegs, hsm]
          · rw [if_neg htw]
            rw [rmatch_lit_nil]
            cases hsm : segMatchRef (':' :: c :: r) (s.takeWhile notSlash)
              with
            | none => simp [refMatchSegs, hsm]
            | some bs => simp [refMatchSegs, hsm]
        | cons d s2 =>
          have hd : d = '/' := dropWhile_head_slash hdw
          subst hd
          rw [rmatch_lit_cons, if_pos rfl]
          by_cases htw : (s.takeWhile notSlash).length = 0
          · rw [if_pos htw]
            have htw2 : s.takeWhile notSlash = [] := by
              simpa [List.length_eq_zero] using htw
            simp [refMatchSegs, segMatchRef, htw2]
          · rw [if_neg htw]
            have htw2 : s.takeWhile notSlash ≠ [] := by
              simpa [List.length_eq_zero] using htw
            cases hr : rmatch (scanSegs (seg2 :: rest)).1 s2 with
            | none =>
              have hnone : refMatchSegs (seg2 :: rest) (splitSlash s2) =
                  none := by
                rw [← ihx s2, hr]; rfl
              simp [hr, refMatchSegs, segMatchRef, List.isEmpty_iff, htw2,
                hnone]
            | some gs =>
              have hsome : refMatchSegs (seg2 :: rest) (splitSlash s2) =
                  some ((scanSegs (seg2 :: rest)).2.zip
                    (gs.map String.mk)) := by
                rw [← ihx s2, hr]; rfl
              simp [hr, refMatchSegs, segMatchRef, List.isEmpty_iff, htw2,
                hsome]
      · rw [scanSegs_lit_cons hlit]
        rw [rmatch_lit_run seg (RTok.lit '/' :: (scanSegs (seg2 :: rest)).1) s]
        rw [splitSlash_eq s]
        by_cases htake : s.take seg.length = seg
        · rw [if_pos htake]
          have hs : seg ++ s.drop seg.length = s := by
            conv_rhs => rw [← List.take_append_drop seg.length s]
            rw [htake]
          have hnosl : ∀ ch ∈ seg, ch ≠ '/' :=
            fun ch hch he => hseg.2 (he ▸ hch)
          cases hdrop : s.drop seg.length with
          | nil =>
            rw [hdrop, List.append_nil] at hs
            rw [rmatch_lit_nil]
            rw [← hs]
            rw [(takeWhile_all_eq hnosl).1, (takeWhile_all_eq hnosl).2]
            simp [refMatchSegs, segMatchRef_lit hlit]
          | cons d s2 =>
            by_cases hd : d = '/'
            · subst hd
              rw [hdrop] at hs
              have htws : s.takeWhile notSlash = seg := by
                rw [← hs]
                exact (takeWhile_app_slash hnosl).1
              have hdws : s.dropWhile notSlash = '/' :: s2 := by
                rw [← hs]
                exact (takeWhile_app_slash hnosl).2
              rw [rmatch_lit_cons, if_pos rfl, htws, hdws]
              cases hr : rmatch (scanSegs (seg2 :: rest)).1 s2 with
              | none =>
                have hnone : refMatchSegs (seg2 :: rest) (splitSlash s2) =
                    none := by
                  rw [← ihx s2, hr]; rfl
                simp [refMatchSegs, segMatchRef_lit hlit, hnone]
              | some gs =>
                have hsome : refMatchSegs (seg2 :: rest) (splitSlash s2) =
                    some ((scanSegs (seg2 :: rest)).2.zip
                      (gs.map String.mk)) := by
                  rw [← ihx s2, hr]; rfl
                simp [refMatchSegs, segMatchRef_lit hlit, hsome]
            · rw [rmatch_lit_cons, if_neg hd]
              have htwne : s.takeWhile notSlash ≠ seg := by
                intro he
                have hd2 := takeWhile_drop_eq s
                rw [he] at hd2
                exact hd (dropWhile_head_slash (by rw [← hd2, hdrop]))
              simp [refMatchSegs, segMatchRef_lit hlit, htwne]
        · rw [if_neg htake]
          have htwne : s.takeWhile notSlash ≠ seg := by
            intro he
            apply htake
            have ht2 := takeWhile_take_eq s
            rw [he] at ht2
            exact ht2
          simp [refMatchSegs, segMatchRef_lit hlit, htwne]

theorem splitSlash_no_slash (p : List Char) :
    ∀ seg ∈ splitSlash p, '/' ∉ seg := by
  induction p with
  | nil =>
    intro seg hseg
    simp [splitSlash] at hseg
    simp [hseg]
  | cons c rest ih =>
    intro seg hseg
    by_cases hc : c = '/'
    · subst hc
      simp only [splitSlash, if_pos rfl] at hseg
      rcases List.mem_cons.mp hseg with rfl | hin
      · simp
      · exact ih seg hin
    · simp only [splitSlash, if_neg hc] at hseg
      cases h : splitSlash rest with
      | nil => exact absurd h (splitSlash_ne_nil rest)
      | cons sg0 sgs =>
        rw [h] at hseg
        have hsg0 : sg0 ∈ splitSlash rest := by
          rw [h]
          exact List.mem_cons_self _ _
        rcases List.mem_cons.mp hseg with rfl | hin
        · intro hmem
          rcases List.mem_cons.mp hmem with heq | hin2
          · exact hc heq.symm
          · exact ih sg0 hsg0 hin2
        · refine ih seg ?_
          rw [h]
          exact List.mem_cons_of_mem _ hin

/-- On the well-behaved fragment, the source matcher agrees with the
reference segment matcher on every path. -/
theorem matchRoute_eq_ref (pattern path : String) (h : WFpat pattern) :
    matchRoute pattern path = refSegMatch pattern path := by
  have hall : ∀ seg ∈ splitSlash pattern.toList,
      segOK seg = true ∧ '/' ∉ seg := by
    intro seg hseg
    exact ⟨List.all_eq_true.mp h seg hseg,
      splitSlash_no_slash pattern.toList seg hseg⟩
  have hmain := main_segs (splitSlash pattern.toList) path.toList
    (splitSlash_ne_nil pattern.toList) hall
  unfold matchRoute matchRoutePairs scanPattern refSegMatch
  rw [hmain]

/-! ### JavaScript object lemmas: assignment, spread and lookup -/

/-- Reading a key of a cons cell of the association-list object. -/
theorem objGet_cons (e : String × String) (l : List (String × String))
    (n : String) :
    objGet (e :: l) n = if e.1 = n then some e.2 else objGet l n := by
  by_cases h : e.1 = n
  · simp [objGet, List.find?_cons_of_pos, h]
  · rw [objGet, List.find?_cons_of_neg _ (by simpa using h), if_neg h]
    rfl

theorem objGet_map_assign (obj : List (String × String)) (k v n : String) :
    objGet (obj.map (fun e => if e.1 == k then (e.1, v) else e)) n =
      if n = k then
        (if obj.any (fun e => e.1 == k) then some v else none)
      else objGet obj n := by
  induction obj with
  | nil => simp [objGet]
  | cons e rest ih =>
    rw [List.map_cons, objGet_cons, objGet_cons e rest n, List.any_cons]
    by_cases hek : e.1 = k
    · have hekb : (e.1 == k) = true := by simpa using hek
      by_cases hen : e.1 = n
      · have hnk : n = k := by rw [← hen, hek]
        simp [hekb, hen, hnk]
      · have hnk : ¬ n = k := fun hh => hen (by rw [hek, hh])
        rw [ih]
        simp [hekb, hen, hnk]
    · have hekb : (e.1 == k) = false := by simpa using hek
      by_cases hen : e.1 = n
      · have hnk : ¬ n = k := fun hh => hek (by rw [hen, hh])
        simp [hekb, hen, hnk]
      · rw [ih]
        rw [hekb]
        rw [Bool.false_or]
        simp [hen]

/-- Reading a key after a JavaScript assignment: the assigned key now maps
to the new value; every other key is untouched. -/
theorem objGet_jsAssign (obj : List (String × String)) (k v n : String) :
    objGet (jsAssign obj k v) n = if n = k then some v else objGet obj n := by
  unfold jsAssign
  by_cases hany : obj.any (fun e => e.1 == k) = true
  · rw [if_pos hany, objGet_map_assign, hany]
    by_cases hnk : n = k
    · simp [hnk]
    · simp [hnk]
  · rw [if_neg hany]
    have hnone : obj.find? (fun e => e.1 == k) = none := by
      refine List.find?_eq_none.mpr ?_
      intro x hx hpx
      exact hany (List.any_eq_true.mpr ⟨x, hx, hpx⟩)
    by_cases hnk : n = k
    · subst hnk
      simp only [objGet]
      rw [List.find?_append, hnone]
      simp
    · simp only [objGet]
      rw [List.find?_append]
      have hsingle : ([(k, v)] : List (String × String)).find?
          (fun e => e.1 == n) = none := by
        refine List.find?_eq_none.mpr ?_
        intro x hx hpx
        apply hnk
        have hxkv : x = (k, v) := by simpa using hx
        have hx1 : x.1 = n := by simpa using hpx
        rw [hxkv] at hx1
        exact hx1.symm
      rw [hsingle, if_neg hnk]
      simp

/-- Reading a key after an object spread: an entry of the spread object
wins (the last entry for that key), otherwise the base object answers. -/
theorem objGet_jsSpread (extra : List (String × String)) :
    ∀ (base : List (String × String)) (n : String),
    objGet (jsSpread base extra) n =
      match extra.reverse.find? (fun e => e.1 == n) with
      | some e => some e.2
      | none => objGet base n := by
  induction extra with
  | nil => intro base n; simp [jsSpread]
  | cons e rest ih =>
    intro base n
    have hstep : jsSpread base (e :: rest) =
        jsSpread (jsAssign base e.1 e.2) rest := rfl
    rw [hstep, ih, List.reverse_cons, List.find?_append]
    cases hf : rest.reverse.find? (fun e2 => e2.1 == n) with
    | some x => simp
    | none =>
      simp only [Option.none_or]
      rw [objGet_jsAssign]
      by_cases hne : n = e.1
      · rw [if_pos hne]
        have hs : ([e] : List (String × String)).find? (fun e2 => e2.1 == n) =
            some e := List.find?_cons_of_pos _ (by simpa using hne.symm)
        rw [hs]
      · rw [if_neg hne]
        have hs : ([e] : List (String × String)).find? (fun e2 => e2.1 == n) =
            none := by
          rw [List.find?_cons_of_neg _ (by simpa using fun hh => hne hh.symm)]
          rfl
        rw [hs]

/-- Looking a name up in the params object built by the assignment loop
returns the value of the last (rightmost) pair carrying that name. -/
theorem objGet_assignParams (prs : List (String × String)) (n : String) :
    objGet (assignParams prs) n =
      (prs.reverse.find? (fun e => e.1 == n)).map (fun e => e.2) := by
  have hdef : assignParams prs = jsSpread [] prs := rfl
  rw [hdef, objGet_jsSpread]
  cases hf : prs.reverse.find? (fun e => e.1 == n) with
  | some x => simp
  | none => simp [objGet]

/-! ### Dispatch trace lemmas -/

/-- The middleware loop emits exactly the events of consecutively indexed
middleware runs, all observing the same request. -/
theorem runMWs_trace (mws : List Middleware) :
    ∀ (req : RouterRequest) (res : RouterResponse) (i : Nat)
      (tr : List Event) (ph : MWPhase),
      runMWs mws req res i = (tr, ph) →
      tr = (List.range tr.length).map
        (fun j => Event.ranMiddleware (i + j) req.params) := by
  induction mws with
  | nil =>
    intro req res i tr ph h
    have h0 : (([], MWPhase.fellThrough res) : List Event × MWPhase) =
        (tr, ph) := h
    simp only [Prod.mk.injEq] at h0
    rw [← h0.1]
    simp
  | cons m ms ih =>
    intro req res i tr ph h
    rcases hm : m req res with ⟨outcome, res2⟩
    cases outcome with
    | respond r =>
      have hstep : runMWs (m :: ms) req res i =
          ([.ranMiddleware i req.params], .shortCircuit r) := by
        simp [runMWs, hm]
      rw [hstep] at h
      simp only [Prod.mk.injEq] at h
      rw [← h.1]
      simp only [List.length_cons, List.length_nil, Nat.zero_add]
      have hr1 : List.range 1 = [0] := rfl
      rw [hr1]
      simp
    | raise msg =>
      have hstep : runMWs (m :: ms) req res i =
          ([.ranMiddleware i req.params], .errored msg) := by
        simp [runMWs, hm]
      rw [hstep] at h
      simp only [Prod.mk.injEq] at h
      rw [← h.1]
      simp only [List.length_cons, List.length_nil, Nat.zero_add]
      have hr1 : List.range 1 = [0] := rfl
      rw [hr1]
      simp
    | proceed =>
      rcases hr : runMWs ms req res2 (i + 1) with ⟨tr2, ph2⟩
      have hstep : runMWs (m :: ms) req res i =
          (.ranMiddleware i req.params :: tr2, ph2) := by
        simp [runMWs, hm, hr]
      rw [hstep] at h
      simp only [Prod.mk.injEq] at h
      have ht2 := ih req res2 (i + 1) tr2 ph2 hr
      rw [← h.1, ht2]
      have hlen : (Event.ranMiddleware i req.params ::
          (List.range tr2.length).map
            (fun j => Event.ranMiddleware (i + 1 + j) req.params)).length =
          tr2.length + 1 := by
        simp
      rw [hlen, List.range_succ_eq_map]
      simp only [List.map_cons, List.map_map, Nat.add_zero]
      congr 1
      apply List.map_congr_left
      intro j hj
      have harith : i + 1 + j = i + Nat.succ j := by omega
      simp only [Function.comp_apply, ← harith]

/-- Every event of the middleware loop is a middleware event carrying the
params of the dispatched request. -/
theorem runMWs_events (mws : List Middleware) (req : RouterRequest)
    (res : RouterResponse) (i : Nat) (tr : List Event) (ph : MWPhase)
    (h : runMWs mws req res i = (tr, ph)) :
    ∀ e ∈ tr, ∃ j, e = Event.ranMiddleware j req.params := by
  intro e he
  rw [runMWs_trace mws req res i tr ph h] at he
  rcases List.mem_map.mp he with ⟨j, _, rfl⟩
  exact ⟨i + j, rfl⟩

/-- Every event of the route scan is a handler event with assigned
(present) params. -/
theorem runRoutes_events (routes : List Route) :
    ∀ (req : RouterRequest) (res : RouterResponse) (pathname method : String)
      (i : Nat) (tr : List Event) (ph : RoutePhase),
      runRoutes routes req res pathname method i = (tr, ph) →
      ∀ e ∈ tr, ∃ j ps, e = Event.ranHandler j (some ps) := by
  induction routes with
  | nil =>
    intro req res pathname method i tr ph h e he
    have h0 : (([], RoutePhase.noMatch) : List Event × RoutePhase) =
        (tr, ph) := h
    simp only [Prod.mk.injEq] at h0
    rw [← h0.1] at he
    simp at he
  | cons rt rts ih =>
    intro req res pathname method i tr ph h e he
    cases hmatch : matchRoute rt.url pathname with
    | none =>
      have hstep : runRoutes (rt :: rts) req res pathname method i =
          runRoutes rts req res pathname method (i + 1) := by
        simp [runRoutes, hmatch]
      rw [hstep] at h
      exact ih req res pathname method (i + 1) tr ph h e he
    | some ps =>
      by_cases hmeth : (rt.method == method) = true
      · cases hcb : rt.callback { req with params := some ps } res with
        | ok r =>
          have hstep : runRoutes (rt :: rts) req res pathname method i =
              ([.ranHandler i (some ps)], .handled r) := by
            simp [runRoutes, hmatch, hmeth, hcb]
          rw [hstep] at h
          have h0 := h
          simp only [Prod.mk.injEq] at h0
          rw [← h0.1] at he
          have : e = Event.ranHandler i (some ps) := by simpa using he
          exact ⟨i, ps, this⟩
        | raise msg =>
          have hstep : runRoutes (rt :: rts) req res pathname method i =
              ([.ranHandler i (some ps)], .herrored msg) := by
            simp [runRoutes, hmatch, hmeth, hcb]
          rw [hstep] at h
          have h0 := h
          simp only [Prod.mk.injEq] at h0
          rw [← h0.1] at he
          have : e = Event.ranHandler i (some ps) := by simpa using he
          exact ⟨i, ps, this⟩
      · have hstep : runRoutes (rt :: rts) req res pathname method i =
            runRoutes rts req res pathname method (i + 1) := by
          simp [runRoutes, hmatch, hmeth]
        rw [hstep] at h
        exact ih req res pathname method (i + 1) tr ph h e he

/-- When no registered route matches the method and the path, the scan
runs no handler and reports no match. -/
theorem runRoutes_noMatch (routes : List Route) :
    ∀ (req : RouterRequest) (res : RouterResponse) (pathname method : String)
      (i : Nat),
      (∀ rt ∈ routes, matchRoute rt.url pathname = none ∨
        rt.method ≠ method) →
      runRoutes routes req res pathname method i = ([], .noMatch) := by
  induction routes with
  | nil => intro req res pathname method i _; rfl
  | cons rt rts ih =>
    intro req res pathname method i hall
    have hrest := ih req res pathname method (i + 1)
      (fun r hr => hall r (List.mem_cons_of_mem _ hr))
    rcases hall rt (List.mem_cons_self _ _) with hmatch | hmeth
    · have hstep : runRoutes (rt :: rts) req res pathname method i =
          runRoutes rts req res pathname method (i + 1) := by
        simp [runRoutes, hmatch]
      rw [hstep, hrest]
    · cases hmatch : matchRoute rt.url pathname with
      | none =>
        have hstep : runRoutes (rt :: rts) req res pathname method i =
            runRoutes rts req res pathname method (i + 1) := by
          simp [runRoutes, hmatch]
        rw [hstep, hrest]
      | some ps =>
        have hmb : (rt.method == method) = false := by
          simpa using hmeth
        have hstep : runRoutes (rt :: rts) req res pathname method i =
            runRoutes rts req res pathname method (i + 1) := by
          simp [runRoutes, hmatch, hmb]
        rw [hstep, hrest]

/-! ### Claim theorems -/

/-- C1 (amended): the claim that `_matchRoute` behaves as the reference
segment matcher on every pattern fails, because the source compiles the
pattern to a regex without escaping: a colon inside a segment starts a
capturing group there, and regex metacharacters in literal text are read
as regex syntax.  Amended as the counterexample forces: on patterns in
which every slash-delimited segment is either a named parameter segment
(a colon followed by a non-empty name) or a plain literal segment (no
regex metacharacters, a colon at most as the final character of the
segment), `_matchRoute` agrees with the reference segment matcher on
every path; the concrete examples of the claim hold as stated, with
captured names bound in left-to-right declaration order. -/
theorem c1_matcher_reference :
    (∀ pattern path : String, WFpat pattern →
      matchRoute pattern path = refSegMatch pattern path)
    ∧ matchRoute "/static" "/static" = some []
    ∧ matchRoute "/static" "/static/extra" = none
    ∧ matchRoute "/a/:b/c/:d" "/a/x/c/y" = some [("b", "x"), ("d", "y")]
    ∧ matchRoute "/users/:id" "/posts/123" = none := by
  refine ⟨matchRoute_eq_ref, ?_, ?_, ?_, ?_⟩ <;> decide

theorem c1_matcher_reference_witness :
    matchRoute "/users/:id" "/users/123" =
      refSegMatch "/users/:id" "/users/123" :=
  c1_matcher_reference.1 "/users/:id" "/users/123" (by unfold WFpat; decide)

/-- C1 counterexample: in the pattern whose second segment is the literal
text a colon b, the colon starts a capture mid-segment, so the source
matcher accepts a path the reference segment matcher rejects. -/
theorem c1_matcher_reference_counterexample :
    matchRoute "/a:b" "/aXY" = some [("b", "XY")] ∧
      refSegMatch "/a:b" "/aXY" = none := by
  decide

/-- C2: middleware execute strictly sequentially in registration order,
each completing before the next starts; when one returns a materialized
response, dispatch returns that response verbatim and neither any later
middleware nor any route handler runs.  First component: a short-circuit
in the middleware phase makes fetch return that response with exactly the
middleware-phase trace.  Second component: every middleware-phase trace
is the list of consecutively indexed middleware events from its starting
index (in particular it is in registration order and contains no handler
event). -/
theorem c2_middleware_sequential :
    (∀ (router : Router) (parseURL : String → Option String)
        (raw : RawRequest) (u pathname : String) (tr : List Event)
        (r : Response),
        raw.url = .strv u → parseURL u = some pathname →
        runMWs router.middlewares (RouterRequest.fromRaw raw)
          RouterResponse.init 0 = (tr, .shortCircuit r) →
        Router.fetch router parseURL (some raw) = (r, tr))
    ∧ (∀ (mws : List Middleware) (req : RouterRequest)
        (res : RouterResponse) (i : Nat) (tr : List Event) (ph : MWPhase),
        runMWs mws req res i = (tr, ph) →
        tr = (List.range tr.length).map
          (fun j => Event.ranMiddleware (i + j) req.params)) := by
  constructor
  · intro router parseURL raw u pathname tr r hu hp hmw
    simp [Router.fetch, hu, hp, hmw]
  · exact runMWs_trace

theorem c2_middleware_sequential_witness :
    Router.fetch
      { routes := [],
        middlewares := [fun _ res =>
          (MWOutcome.respond (RouterResponse.text res none), res)] }
      (fun s => some s) (some { url := .strv "/", method := "GET" }) =
      (RouterResponse.text RouterResponse.init none,
       [Event.ranMiddleware 0 none]) :=
  c2_middleware_sequential.1
    { routes := [],
      middlewares := [fun _ res =>
        (MWOutcome.respond (RouterResponse.text res none), res)] }
    (fun s => some s) { url := .strv "/", method := "GET" } "/" "/"
    [Event.ranMiddleware 0 none]
    (RouterResponse.text RouterResponse.init none) rfl rfl rfl

/-- C4: fetch is total at its boundary.  An absent raw request or a
non-string url yields the 400 structured error with status text Invalid
request object; a failure of the URL parser, the one failure of the
dispatch body no inner handler catches, is converted by the top-level
catch into the generic 500 structured error with the fixed message
Failed to process request.  Every failure in this model is an explicit
value and fetch is a total function, so no exception reaches the
caller. -/
theorem c4_fetch_boundary :
    (∀ (router : Router) (parseURL : String → Option String),
        Router.fetch router parseURL none =
          (Router._errorResponse 400 "Invalid request object" none, []))
    ∧ (∀ (router : Router) (parseURL : String → Option String)
        (raw : RawRequest), raw.url = .absent ∨ raw.url = .nonStr →
        Router.fetch router parseURL (some raw) =
          (Router._errorResponse 400 "Invalid request object" none, []))
    ∧ (∀ (router : Router) (parseURL : String → Option String)
        (raw : RawRequest) (u : String), raw.url = .strv u →
        parseURL u = none →
        Router.fetch router parseURL (some raw) =
          (Router._errorResponse 500 "Internal Server Error"
            (some "Failed to process request"), [])) := by
  refine ⟨fun router parseURL => rfl, ?_, ?_⟩
  · intro router parseURL raw h
    rcases h with h | h <;> simp [Router.fetch, h]
  · intro router parseURL raw u hu hp
    simp [Router.fetch, hu, hp]

theorem c4_fetch_boundary_witness :
    Router.fetch Router.empty (fun _ => none)
      (some { url := .strv "no scheme", method := "GET" }) =
      (Router._errorResponse 500 "Internal Server Error"
        (some "Failed to process request"), []) :=
  c4_fetch_boundary.2.2 Router.empty (fun _ => none)
    { url := .strv "no scheme", method := "GET" } "no scheme" rfl rfl

/-- C5 (amended): a failure raised inside a middleware call or inside the
matched route handler is caught and becomes an HTTP 500 structured JSON
response whose body has an error field and status 500, and, when the
thrown message is non-empty, that message under the message field; the
failure does not propagate past dispatch.  The amendment the
counterexample forces: the error builder drops falsy messages, so a
thrown failure with the empty message produces a body with no message
field. -/
theorem c5_failures_become_500 :
    (∀ (router : Router) (parseURL : String → Option String)
        (raw : RawRequest) (u pathname : String) (tr : List Event)
        (msg : String),
        raw.url = .strv u → parseURL u = some pathname →
        runMWs router.middlewares (RouterRequest.fromRaw raw)
          RouterResponse.init 0 = (tr, .errored msg) →
        Router.fetch router parseURL (some raw) =
          (Router._errorResponse 500 "Middleware Error" (some msg), tr))
    ∧ (∀ (router : Router) (parseURL : String → Option String)
        (raw : RawRequest) (u pathname : String) (tr tr2 : List Event)
        (res2 : RouterResponse) (msg : String),
        raw.url = .strv u → parseURL u = some pathname →
        runMWs router.middlewares (RouterRequest.fromRaw raw)
          RouterResponse.init 0 = (tr, .fellThrough res2) →
        runRoutes router.routes (RouterRequest.fromRaw raw) res2 pathname
          raw.method 0 = (tr2, .herrored msg) →
        Router.fetch router parseURL (some raw) =
          (Router._errorResponse 500 "Internal Server Error" (some msg),
            tr ++ tr2))
    ∧ (∀ (statusText msg : String), msg ≠ "" →
        (Router._errorResponse 500 statusText (some msg)).body =
          BodyVal.jsonBody (JsonVal.obj
            [("error", .str statusText), ("status", .num 500),
             ("message", .str msg)]) ∧
        (Router._errorResponse 500 statusText (some msg)).status = 500) := by
  refine ⟨?_, ?_, ?_⟩
  · intro router parseURL raw u pathname tr msg hu hp hmw
    simp [Router.fetch, hu, hp, hmw]
  · intro router parseURL raw u pathname tr tr2 res2 msg hu hp hmw hrt
    simp [Router.fetch, hu, hp, hmw, hrt]
  · intro statusText msg hmsg
    constructor
    · simp [Router._errorResponse, hmsg]
    · rfl

theorem c5_failures_become_500_witness :
    Router.fetch
      { routes := [], middlewares := [fun _ res => (.raise "boom", res)] }
      (fun s => some s) (some { url := .strv "/", method := "GET" }) =
      (Router._errorResponse 500 "Middleware Error" (some "boom"),
       [Event.ranMiddleware 0 none]) :=
  c5_failures_become_500.1
    { routes := [], middlewares := [fun _ res => (.raise "boom", res)] }
    (fun s => some s) { url := .strv "/", method := "GET" } "/" "/"
    [Event.ranMiddleware 0 none] "boom" rfl rfl rfl

/-- C5 counterexample: a handler that throws an Error with the empty
message yields a 500 response whose JSON body carries no message field at
all, against the claim that the thrown message appears under the message
field. -/
theorem c5_failures_become_500_counterexample :
    (Router.fetch
      { routes := [{ url := "/e", callback := fun _ _ => .raise "",
                     method := "GET" }], middlewares := [] }
      (fun s => some s) (some { url := .strv "/e", method := "GET" })).1 =
      Router._errorResponse 500 "Internal Server Error" (some "") ∧
    (Router._errorResponse 500 "Internal Server Error"
      (some "")).bodyField "message" = none := by
  constructor
  · rfl
  · rfl

/-- C6: a dispatched request whose method and path match no registered
route yields the 404 structured error built by the single error-response
builder: JSON body with status 404 and a message naming the unmatched
method and path, headers exactly the JSON content type and the permissive
CORS origin, and the message field omitted when the message is null. -/
theorem c6_not_found :
    (∀ (router : Router) (parseURL : String → Option String)
        (raw : RawRequest) (u pathname : String) (tr : List Event)
        (res2 : RouterResponse),
        raw.url = .strv u → parseURL u = some pathname →
        runMWs router.middlewares (RouterRequest.fromRaw raw)
          RouterResponse.init 0 = (tr, .fellThrough res2) →
        (∀ rt ∈ router.routes,
          matchRoute rt.url pathname = none ∨ rt.method ≠ raw.method) →
        Router.fetch router parseURL (some raw) =
          (Router._errorResponse 404 "Not Found"
            (some ("Route " ++ raw.method ++ " " ++ pathname ++
              " not found")), tr))
    ∧ (∀ (status : Rat) (statusText msg : String), msg ≠ "" →
        (Router._errorResponse status statusText (some msg)).bodyField
          "status" = some (.num status) ∧
        (Router._errorResponse status statusText (some msg)).bodyField
          "message" = some (.str msg) ∧
        (Router._errorResponse status statusText (some msg)).headers =
          [("Content-Type", "application/json"),
           ("Access-Control-Allow-Origin", "*")])
    ∧ (∀ (status : Rat) (statusText : String),
        (Router._errorResponse status statusText none).bodyField
          "message" = none ∧
        (Router._errorResponse status statusText none).headers =
          [("Content-Type", "application/json"),
           ("Access-Control-Allow-Origin", "*")]) := by
  refine ⟨?_, ?_, ?_⟩
  · intro router parseURL raw u pathname tr res2 hu hp hmw hroutes
    have hscan := runRoutes_noMatch router.routes (RouterRequest.fromRaw raw)
      res2 pathname raw.method 0 hroutes
    simp [Router.fetch, hu, hp, hmw, hscan]
  · intro status statusText msg hmsg
    refine ⟨?_, ?_, rfl⟩
    · simp [Router._errorResponse, Response.bodyField, jsonObjGet, hmsg]
    · simp [Router._errorResponse, Response.bodyField, jsonObjGet, hmsg]
  · intro status statusText
    exact ⟨rfl, rfl⟩

theorem c6_not_found_witness :
    Router.fetch Router.empty (fun s => some s)
      (some { url := .strv "/nope", method := "GET" }) =
      (Router._errorResponse 404 "Not Found"
        (some ("Route " ++ "GET" ++ " " ++ "/nope" ++ " not found")), []) :=
  c6_not_found.1 Router.empty (fun s => some s)
    { url := .strv "/nope", method := "GET" } "/nope" "/nope" []
    RouterResponse.init rfl rfl rfl (by simp [Router.empty])

/-- Every event of a dispatch trace is either a middleware run observing
absent params or a handler run observing assigned params. -/
theorem fetch_trace_events (router : Router)
    (parseURL : String → Option String) (request : Option RawRequest)
    (r : Response) (tr : List Event)
    (h : Router.fetch router parseURL request = (r, tr)) :
    ∀ e ∈ tr, (∃ j, e = Event.ranMiddleware j none) ∨
      (∃ j ps, e = Event.ranHandler j (some ps)) := by
  intro e he
  cases request with
  | none =>
    have h0 : (Router._errorResponse 400 "Invalid request object" none,
        ([] : List Event)) = (r, tr) := h
    simp only [Prod.mk.injEq] at h0
    rw [← h0.2] at he
    simp at he
  | some raw =>
    cases hurl : raw.url with
    | absent =>
      have h0 := h
      simp only [Router.fetch, hurl] at h0
      simp only [Prod.mk.injEq] at h0
      rw [← h0.2] at he
      simp at he
    | nonStr =>
      have h0 := h
      simp only [Router.fetch, hurl] at h0
      simp only [Prod.mk.injEq] at h0
      rw [← h0.2] at he
      simp at he
    | strv u =>
      cases hpu : parseURL u with
      | none =>
        have h0 := h
        simp only [Router.fetch, hurl, hpu] at h0
        simp only [Prod.mk.injEq] at h0
        rw [← h0.2] at he
        simp at he
      | some pathname =>
        rcases hmw : runMWs router.middlewares (RouterRequest.fromRaw raw)
            RouterResponse.init 0 with ⟨trm, phm⟩
        have hmwev := runMWs_events router.middlewares
          (RouterRequest.fromRaw raw) RouterResponse.init 0 trm phm hmw
        cases phm with
        | shortCircuit r0 =>
          have h0 := h
          simp only [Router.fetch, hurl, hpu, hmw] at h0
          simp only [Prod.mk.injEq] at h0
          rw [← h0.2] at he
          exact Or.inl (hmwev e he)
        | errored msg =>
          have h0 := h
          simp only [Router.fetch, hurl, hpu, hmw] at h0
          simp only [Prod.mk.injEq] at h0
          rw [← h0.2] at he
          exact Or.inl (hmwev e he)
        | fellThrough res2 =>
          rcases hrt : runRoutes router.routes (RouterRequest.fromRaw raw)
              res2 pathname raw.method 0 with ⟨trr, phr⟩
          have hrtev := runRoutes_events router.routes
            (RouterRequest.fromRaw raw) res2 pathname raw.method 0 trr phr
            hrt
          have hsplit : tr = trm ++ trr := by
            cases phr with
            | handled r0 =>
              have h0 := h
              simp only [Router.fetch, hurl, hpu, hmw, hrt] at h0
              simp only [Prod.mk.injEq] at h0
              exact h0.2.symm
            | herrored msg =>
              have h0 := h
              simp only [Router.fetch, hurl, hpu, hmw, hrt] at h0
              simp only [Prod.mk.injEq] at h0
              exact h0.2.symm
            | noMatch =>
              have h0 := h
              simp only [Router.fetch, hurl, hpu, hmw, hrt] at h0
              simp only [Prod.mk.injEq] at h0
              exact h0.2.symm
          rw [hsplit] at he
          rcases List.mem_append.mp he with hm | hrr
          · exact Or.inl (hmwev e hm)
          · exact Or.inr ((hrtev e hrr).imp fun j hj => hj)

/-- C9 (amended): the request wrapper constructor never assigns params,
so immediately after construction params is absent (undefined, modelled
as none), not an empty map; the dispatcher populates it only after a
successful route match, so middleware, which run before matching, observe
the request with absent params, while every handler invocation observes
assigned params. -/
theorem c9_params_after_match :
    (∀ raw : RawRequest, (RouterRequest.fromRaw raw).params = none)
    ∧ (∀ (router : Router) (parseURL : String → Option String)
        (request : Option RawRequest) (r : Response) (tr : List Event),
        Router.fetch router parseURL request = (r, tr) →
        tr.all mwSawNoParams = true)
    ∧ (∀ (router : Router) (parseURL : String → Option String)
        (request : Option RawRequest) (r : Response) (tr : List Event),
        Router.fetch router parseURL request = (r, tr) →
        tr.all handlerSawParams = true) := by
  refine ⟨fun raw => rfl, ?_, ?_⟩
  · intro router parseURL request r tr h
    refine List.all_eq_true.mpr ?_
    intro e he
    rcases fetch_trace_events router parseURL request r tr h e he with
      ⟨j, rfl⟩ | ⟨j, ps, rfl⟩
    · rfl
    · rfl
  · intro router parseURL request r tr h
    refine List.all_eq_true.mpr ?_
    intro e he
    rcases fetch_trace_events router parseURL request r tr h e he with
      ⟨j, rfl⟩ | ⟨j, ps, rfl⟩
    · rfl
    · rfl

theorem c9_params_after_match_witness :
    ([Event.ranMiddleware 0 none,
      Event.ranHandler 0 (some [])].all mwSawNoParams) = true ∧
    ([Event.ranMiddleware 0 none,
      Event.ranHandler 0 (some [])].all handlerSawParams) = true :=
  ⟨c9_params_after_match.2.1
      { routes := [{ url := "/w",
                     callback := fun _ res => .ok (RouterResponse.text res none),
                     method := "GET" }],
        middlewares := [fun _ res => (.proceed, res)] }
      (fun s => some s) (some { url := .strv "/w", method := "GET" })
      (RouterResponse.text RouterResponse.init none)
      [Event.ranMiddleware 0 none, Event.ranHandler 0 (some [])] rfl,
   c9_params_after_match.2.2
      { routes := [{ url := "/w",
                     callback := fun _ res => .ok (RouterResponse.text res none),
                     method := "GET" }],
        middlewares := [fun _ res => (.proceed, res)] }
      (fun s => some s) (some { url := .strv "/w", method := "GET" })
      (RouterResponse.text RouterResponse.init none)
      [Event.ranMiddleware 0 none, Event.ranHandler 0 (some [])] rfl⟩

/-- C9 counterexample: right after construction the params property is
absent (the constructor never assigns it), not an empty map. -/
theorem c9_params_after_match_counterexample :
    (RouterRequest.fromRaw { url := .strv "/", method := "GET" }).params =
      none ∧
    (RouterRequest.fromRaw { url := .strv "/", method := "GET" }).params ≠
      some [] := by
  exact ⟨rfl, by decide⟩

/-- C3: every router state reachable by the registration operations has
no two routes sharing an identical (method, pattern) pair; registering an
identical pair twice fails with the duplicate-route error naming the
method and the pattern; registering the same pattern under a distinct
method succeeds and appends the route at the end of the table. -/
theorem c3_route_uniqueness :
    (∀ r : Router, Reachable r →
        r.routes.Pairwise
          (fun a b => ¬(a.url = b.url ∧ a.method = b.method)))
    ∧ (∀ (r : Router) (m u : String) (cb : Handler),
        (∃ rt ∈ r.routes, rt.url = u ∧ rt.method = m) → u ≠ "" →
        Router._addRoute r m (.strv u) (.fnv cb) =
          .error ("Route already exists for " ++ m ++ " " ++ u ++ "."))
    ∧ (∀ (r : Router) (m u : String) (cb : Handler),
        (∀ rt ∈ r.routes, rt.url = u → rt.method ≠ m) → u ≠ "" →
        Router._addRoute r m (.strv u) (.fnv cb) =
          .ok { r with routes := r.routes ++
            [{ url := u, callback := cb, method := m }] }) := by
  refine ⟨?_, ?_, ?_⟩
  · intro r hr
    induction hr with
    | init => simp [Router.empty]
    | addRoute r0 r2 m url cb hr0 heq ih =>
      by_cases hfal : (url.falsy || cb.falsy) = true
      · simp [Router._addRoute, hfal] at heq
      · cases url with
        | absent => simp [Router._addRoute, hfal] at heq
        | nonStr => simp [Router._addRoute, hfal] at heq
        | strv u =>
          cases cb with
          | absent => simp [Router._addRoute, hfal] at heq
          | nonFn => simp [Router._addRoute, hfal] at heq
          | fnv c =>
            by_cases hany : (r0.routes.any
                (fun rt => rt.url == u && rt.method == m)) = true
            · simp [Router._addRoute, hfal, hany] at heq
            · have heq2 : { r0 with routes := r0.routes ++
                  [{ url := u, callback := c, method := m }] } = r2 := by
                have h0 := heq
                simp [Router._addRoute, hfal, hany] at h0
                exact h0
              rw [← heq2]
              refine List.pairwise_append.mpr ⟨ih, by simp, ?_⟩
              intro a ha b hb
              have hb2 : b = { url := u, callback := c, method := m } := by
                simpa using hb
              rw [hb2]
              intro hcontr
              apply hany
              refine List.any_eq_true.mpr ⟨a, ha, ?_⟩
              have h1 : a.url = u := hcontr.1
              have h2 : a.method = m := hcontr.2
              simp [h1, h2]
    | useMw r0 r2 mwarg hr0 heq ih =>
      cases mwarg with
      | nonFn => simp [Router.use] at heq
      | fnv m0 =>
        have heq2 : { r0 with middlewares := r0.middlewares ++ [m0] } =
            r2 := by
          have h0 := heq
          simp [Router.use] at h0
          exact h0
        rw [← heq2]
        exact ih
  · intro r m u cb hex hu
    have hfal : ((StrArg.strv u).falsy || (CbArg.fnv cb).falsy) = false := by
      simp [StrArg.falsy, CbArg.falsy, hu]
    have hany : (r.routes.any
        (fun rt => rt.url == u && rt.method == m)) = true := by
      rcases hex with ⟨rt, hmem, h1, h2⟩
      exact List.any_eq_true.mpr ⟨rt, hmem, by simp [h1, h2]⟩
    simp [Router._addRoute, hfal, hany]
  · intro r m u cb hall hu
    have hfal : ((StrArg.strv u).falsy || (CbArg.fnv cb).falsy) = false := by
      simp [StrArg.falsy, CbArg.falsy, hu]
    have hany : (r.routes.any
        (fun rt => rt.url == u && rt.method == m)) = false := by
      rw [← Bool.not_eq_true]
      intro hx
      rcases List.any_eq_true.mp hx with ⟨rt, hmem, hrt⟩
      have h1 : rt.url = u ∧ rt.method = m := by simpa using hrt
      exact hall rt hmem h1.1 h1.2
    simp [Router._addRoute, hfal, hany]

theorem c3_route_uniqueness_witness :
    Router._addRoute
      { routes := [{ url := "/t", callback := fun _ _ => .raise "x",
                     method := "GET" }], middlewares := [] }
      "GET" (.strv "/t") (.fnv (fun _ _ => .raise "y")) =
      .error ("Route already exists for " ++ "GET" ++ " " ++ "/t" ++ ".") :=
  c3_route_uniqueness.2.1
    { routes := [{ url := "/t", callback := fun _ _ => .raise "x",
                   method := "GET" }], middlewares := [] }
    "GET" "/t" (fun _ _ => .raise "y")
    ⟨{ url := "/t", callback := fun _ _ => .raise "x", method := "GET" },
      by simp, rfl, rfl⟩ (by decide)

/-- C7: the text accessor rejects a decoded body longer than one mebibyte
with the size-limit failure (re-wrapped by the catch of the same method,
so the surfaced message still names the size limit), not a generic parse
failure; json obtains the body through text and therefore inherits the
ceiling; json rejects a blank or whitespace-only body with the empty-body
failure; and malformed JSON surfaces as a format failure distinct from
the empty-body failure. -/
theorem c7_body_limits :
    (∀ t : String, t.length > 1024 * 1024 →
        RouterRequest.text (.ok t) = .error
          ("Failed to parse request body as text: " ++
            "Request body too large (max 1MB)") ∧
        strIncludes ("Failed to parse request body as text: " ++
          "Request body too large (max 1MB)")
          "Request body too large (max 1MB)" = true)
    ∧ (∀ (parse : String → Except String JsonVal) (t : String),
        t.length > 1024 * 1024 →
        RouterRequest.json parse (.ok t) = .error
          ("Failed to parse request body as JSON: " ++
            ("Failed to parse request body as text: " ++
              "Request body too large (max 1MB)")))
    ∧ (∀ (parse : String → Except String JsonVal) (t : String),
        ¬ t.length > 1024 * 1024 → t.trim = "" →
        RouterRequest.json parse (.ok t) = .error
          ("Failed to parse request body as JSON: " ++
            "Empty request body"))
    ∧ (∀ (parse : String → Except String JsonVal) (t m : String),
        ¬ t.length > 1024 * 1024 → t.trim ≠ "" →
        parse t = .error m → strIncludes m "JSON" = true →
        RouterRequest.json parse (.ok t) =
          .error ("Invalid JSON format: " ++ m))
    ∧ (∀ m : String, "Invalid JSON format: " ++ m ≠
        "Failed to parse request body as JSON: " ++ "Empty request body") := by
  refine ⟨?_, ?_, ?_, ?_, ?_⟩
  · intro t h
    exact ⟨by simp [RouterRequest.text, h], by decide⟩
  · intro parse t h
    have htext : RouterRequest.text (.ok t) = .error
        ("Failed to parse request body as text: " ++
          "Request body too large (max 1MB)") := by
      simp [RouterRequest.text, h]
    have hinc : strIncludes
        "Failed to parse request body as text: Request body too large (max 1MB)"
        "JSON" = false := by decide
    simp [RouterRequest.json, htext, hinc]
  · intro parse t hlen htrim
    have htext : RouterRequest.text (.ok t) = .ok t := by
      simp [RouterRequest.text, hlen]
    have hinc : strIncludes "Empty request body" "JSON" = false := by decide
    simp [RouterRequest.json, htext, htrim, hinc]
  · intro parse t m hlen htrim hparse hinc
    have htext : RouterRequest.text (.ok t) = .ok t := by
      simp [RouterRequest.text, hlen]
    simp [RouterRequest.json, htext, htrim, hparse, hinc]
  · intro m h
    have hd : "Invalid JSON format: ".data ++ m.data =
        ("Failed to parse request body as JSON: " ++
          "Empty request body").data := by
      have he : ("Invalid JSON format: " ++ m).data =
          "Invalid JSON format: ".data ++ m.data := rfl
      rw [← he, h]
    have hI : ("Invalid JSON format: ".data ++ m.data).head? =
        some 'I' := rfl
    have hF : (("Failed to parse request body as JSON: " ++
        "Empty request body").data).head? = some 'F' := rfl
    rw [hd, hF] at hI
    exact absurd (Option.some.inj hI) (by decide)

theorem c7_body_limits_witness :
    RouterRequest.text (.ok (String.mk (List.replicate 1048577 'a'))) =
      .error ("Failed to parse request body as text: " ++
        "Request body too large (max 1MB)") :=
  (c7_body_limits.1 (String.mk (List.replicate 1048577 'a'))
    (by
      have hlen : (String.mk (List.replicate 1048577 'a')).length =
          1048577 := by
        show (List.replicate 1048577 'a').length = 1048577
        exact List.length_replicate 1048577 'a'
      rw [hlen]
      decide)).1

/-- C8 (amended): writeHead fails with the status-range error unless the
status is a number x with 100 ≤ x ≤ 599; integrality is not checked, so a
non-integer number in range such as 200.5 is accepted (the amendment the
counterexample forces).  It fails when a truthy non-string statusText or
a truthy non-object headers argument is supplied; otherwise it only
mutates the pending builder state, spreading the supplied headers over
the current ones with the supplied entries winning on key conflicts; and
writeHead 201 Created followed by json of the empty object materializes a
response with status 201 and statusText Created. -/
theorem c8_writeHead :
    (∀ (r : RouterResponse) (stx : StrArg) (hd : ObjArg),
        RouterResponse.writeHead r .notNum stx hd =
          .error "Status must be a number between 100 and 599")
    ∧ (∀ (r : RouterResponse) (x : Rat) (stx : StrArg) (hd : ObjArg),
        (x < 100 ∨ x > 599) →
        RouterResponse.writeHead r (.num x) stx hd =
          .error "Status must be a number between 100 and 599")
    ∧ (∀ (r : RouterResponse) (x : Rat) (hd : ObjArg),
        100 ≤ x → x ≤ 599 →
        RouterResponse.writeHead r (.num x) .nonStr hd =
          .error "Status text must be a string")
    ∧ (∀ (r : RouterResponse) (x : Rat) (s : String),
        100 ≤ x → x ≤ 599 →
        RouterResponse.writeHead r (.num x) (.strv s) .nonObj =
          .error "Headers must be an object")
    ∧ (∀ (r : RouterResponse) (x : Rat) (s : String)
        (es : List (String × String)),
        100 ≤ x → x ≤ 599 →
        RouterResponse.writeHead r (.num x) (.strv s) (.objv es) =
          .ok { header := jsSpread r.header es, status := x,
                statusText := s })
    ∧ (∀ (cur es : List (String × String)) (n : String),
        objGet (jsSpread cur es) n =
          match es.reverse.find? (fun e => e.1 == n) with
          | some e => some e.2
          | none => objGet cur n)
    ∧ (∃ r2 : RouterResponse,
        RouterResponse.writeHead RouterResponse.init (.num 201)
          (.strv "Created") .absent = .ok r2 ∧
        ∃ resp : Response, r2.json (some (JsonVal.obj [])) = .ok resp ∧
          resp.status = 201 ∧ resp.statusText = "Created") := by
  refine ⟨fun r stx hd => rfl, ?_, ?_, ?_, ?_, ?_, ?_⟩
  · intro r x stx hd h
    simp [RouterResponse.writeHead, h]
  · intro r x hd h1 h2
    have hr : ¬(x < 100 ∨ x > 599) :=
      not_or.mpr ⟨not_lt.mpr h1, not_lt.mpr h2⟩
    simp [RouterResponse.writeHead, hr]
  · intro r x s h1 h2
    have hr : ¬(x < 100 ∨ x > 599) :=
      not_or.mpr ⟨not_lt.mpr h1, not_lt.mpr h2⟩
    simp [RouterResponse.writeHead, hr]
  · intro r x s es h1 h2
    have hr : ¬(x < 100 ∨ x > 599) :=
      not_or.mpr ⟨not_lt.mpr h1, not_lt.mpr h2⟩
    simp [RouterResponse.writeHead, hr]
  · exact fun cur es n => objGet_jsSpread es cur n
  · have hw : RouterResponse.writeHead RouterResponse.init (.num 201)
        (.strv "Created") .absent =
        .ok { header := RouterResponse.init.header, status := 201,
              statusText := "Created" } := rfl
    refine ⟨_, hw, ?_⟩
    refine ⟨_, rfl, ?_, ?_⟩
    · show (if (201 : Rat) = 0 then 200 else 201) = 201
      norm_num
    · rfl

theorem c8_writeHead_witness :
    RouterResponse.writeHead RouterResponse.init (.num 204)
      (.strv "No Content") (.objv [("X-Test", "1")]) =
      .ok { header := jsSpread RouterResponse.init.header [("X-Test", "1")],
            status := 204, statusText := "No Content" } :=
  c8_writeHead.2.2.2.2.1 RouterResponse.init 204 "No Content"
    [("X-Test", "1")] (by norm_num) (by norm_num)

/-- C8 counterexample: writeHead accepts the non-integer status 200.5
(numerator 401, denominator 2), though the claim requires failure on
every non-integer. -/
theorem c8_writeHead_counterexample :
    (RouterResponse.writeHead RouterResponse.init (.num (mkRat 401 2))
      .absent .absent).isOk = true ∧ (mkRat 401 2).den ≠ 1 := by
  exact ⟨by decide, by decide⟩

/-- C10: when a pattern repeats a parameter name, `_matchRoute` is a pure
function of its inputs (deterministic), and the returned params object
binds the repeated name to the capture of its last (rightmost)
occurrence: the (name, capture) pairs are assigned left to right and a
later assignment overwrites the value of an earlier one. -/
theorem c10_repeated_names_last_wins :
    (∀ (pattern path : String) (prs : List (String × String)),
        matchRoutePairs pattern path = some prs →
        matchRoute pattern path = some (assignParams prs) ∧
        ∀ n : String, objGet (assignParams prs) n =
          (prs.reverse.find? (fun e => e.1 == n)).map (fun e => e.2))
    ∧ matchRoutePairs "/:a/:a" "/x/y" = some [("a", "x"), ("a", "y")]
    ∧ matchRoute "/:a/:a" "/x/y" = some [("a", "y")] := by
  refine ⟨?_, by decide, by decide⟩
  intro pattern path prs h
  constructor
  · unfold matchRoute
    rw [h]
    rfl
  · intro n
    exact objGet_assignParams prs n

theorem c10_repeated_names_last_wins_witness :
    objGet (assignParams [("a", "x"), ("a", "y")]) "a" = some "y" := by
  have h := (c10_repeated_names_last_wins.1 "/:a/:a" "/x/y"
    [("a", "x"), ("a", "y")] (by decide)).2 "a"
  rw [h]
  decide
